import Mathlib

/-!
Shallow embedding of the agent RPC gateway slice of the tacticalrmm
repository.  Functions present in `src/` (`tacticalrmm/utils.py`) are
translated directly from the source; view-level and task-level code that is
absent from `src/` (only its tests are included) is modelled from the
specification, with doc comments marking each such definition.
-/

namespace TRMM

/-! ## Shell formatting helpers, from `tacticalrmm/utils.py` -/

/-- Shallow embedding of `format_shell_bool` (utils.py lines 358-362): a
boolean custom-field value renders as a dollar-prefixed boolean for the
powershell shell and as a numeric string for every other shell (including a
missing shell). -/
def format_shell_bool (value : Bool) (shell : Option String) : String :=
  if shell = some "powershell" then
    if value then "$True" else "$False"
  else
    if value then "1" else "0"

/-- Remove every leading and trailing comma from a character list, the
character-level content of Python `str.strip` with a comma argument. -/
def stripc (cs : List Char) : List Char :=
  ((cs.dropWhile (fun c => c = ',')).reverse.dropWhile
    (fun c => c = ',')).reverse

/-- Shallow embedding of the final `.strip` call of `format_shell_array`
(utils.py lines 351-355): Python `str.strip` removes the given character
from BOTH ends of the string. -/
def strip_commas (s : String) : String :=
  String.mk (stripc s.data)

/-- Shallow embedding of `format_shell_array` (utils.py lines 351-355). -/
def format_shell_array (value : List String) : String :=
  strip_commas (value.foldl (fun acc item => acc ++ item ++ ",") "")

/-- Plain comma-separated join of a list of strings, written from the
wording of the specification for comparison with `format_shell_array`. -/
def comma_join : List String → String
  | [] => ""
  | [x] => x
  | x :: xs => x ++ "," ++ comma_join xs

/-! ## Ping view (spec-modelled) -/

/-- Response of the ping endpoint. -/
structure PingResp where
  status : Nat
  name : String
  agentStatus : String
deriving Repr, DecidableEq

/-- Modelled from the spec: the ping view for `GET /agents/id/ping/` is not
under `src/`, only its test is.  Per the spec, dispatching a ping always
yields HTTP 200 with a body of the agent name and a status string; exactly
one transport reply value (the observed value `pong`) maps to `online`, and
every other sentinel or text reply maps to `offline`. -/
def ping_view (hostname : String) (reply : String) : PingResp :=
  { status := 200
    name := hostname
    agentStatus := if reply = "pong" then "online" else "offline" }

/-! ## Event-log fetch view (spec-modelled) -/

/-- Payload sent to the transport for an event-log fetch. -/
structure EventLogPayload where
  func : String
  timeout : Nat
  logname : String
  days : String
deriving Repr, DecidableEq

/-- A transport call: the structured payload plus the wire timeout handed to
the transport client. -/
structure EventLogCall where
  payload : EventLogPayload
  wireTimeout : Nat
deriving Repr, DecidableEq

/-- Modelled from the spec: the event-log view for
`GET /agents/id/eventlog/logname/days/` is not under `src/`, only its test
is.  The requested log name maps to a logical timeout (180 seconds for the
Security log, 30 seconds otherwise); the wire timeout passed to the
transport exceeds the logical one by the fixed grace margin of 2 seconds;
the days parameter is stringified into the nested payload and does not
influence either timeout. -/
def eventlog_call (logname : String) (days : Nat) : EventLogCall :=
  let t : Nat := if logname = "Security" then 180 else 30
  { payload := { func := "eventlog", timeout := t, logname := logname,
                 days := toString days }
    wireTimeout := t + 2 }

/-! ## Recovery view (spec-modelled) -/

/-- Durable record of a remediation attempt. -/
structure RecoveryAction where
  mode : String
  command : Option String
deriving Repr, DecidableEq

/-- Payload sent to the transport for a recovery call. -/
structure RecoverPayload where
  func : String
  mode : String
deriving Repr, DecidableEq

/-- Outcome of the recovery view: HTTP status, RecoveryAction rows created,
and transport calls made. -/
structure RecoverResult where
  status : Nat
  created : List RecoveryAction
  calls : List RecoverPayload
deriving Repr, DecidableEq

/-- Modelled from the spec: the recovery view for `POST /agents/id/recover/`
is not under `src/`, only its test is.  For `mesh` and `tacagent` modes a
recover payload is sent over the transport; an `ok` reply creates no record.
A non-`ok` reply (timeout/offline) creates one RecoveryAction for `mesh`
mode, while for `tacagent` mode nothing is created and the call fails with
400.  For `command` mode a missing or empty shell command is a validation
error (400) before any transport contact; otherwise one RecoveryAction of
mode `command` holding the given command text is always created, with no
synchronous transport round trip. -/
def recover_view (mode : String) (cmd : Option String) (reply : String) :
    RecoverResult :=
  if mode = "mesh" ∨ mode = "tacagent" then
    let call : RecoverPayload := ⟨"recover", mode⟩
    if reply = "ok" then ⟨200, [], [call]⟩
    else if mode = "mesh" then ⟨200, [⟨"mesh", none⟩], [call]⟩
    else ⟨400, [], [call]⟩
  else if mode = "command" then
    match cmd with
    | none => ⟨400, [], []⟩
    | some c =>
      if c = "" then ⟨400, [], []⟩
      else ⟨200, [⟨"command", some c⟩], []⟩
  else ⟨400, [], []⟩

/-! ## Scheduled reboot view (spec-modelled) -/

/-- Components of a parsed date-time string. -/
structure RebootDate where
  year : Nat
  month : Nat
  day : Nat
  hour : Nat
  minute : Nat
deriving Repr, DecidableEq

/-- English month name used in the scheduled-task payload. -/
def month_name (m : Nat) : String :=
  match m with
  | 1 => "January"
  | 2 => "February"
  | 3 => "March"
  | 4 => "April"
  | 5 => "May"
  | 6 => "June"
  | 7 => "July"
  | 8 => "August"
  | 9 => "September"
  | 10 => "October"
  | 11 => "November"
  | 12 => "December"
  | _ => ""

/-- Scheduled-task payload sent to the transport for a scheduled reboot. -/
structure SchedTaskPayload where
  func : String
  ptype : String
  deleteafter : Bool
  trigger : String
  name : String
  year : Nat
  month : String
  day : Nat
  hour : Nat
  min : Nat
deriving Repr, DecidableEq

/-- Outcome of the scheduled-reboot view: HTTP status, response body, and
transport calls made. -/
structure RebootLaterResult where
  status : Nat
  body : String
  calls : List SchedTaskPayload
deriving Repr, DecidableEq

/-- Modelled from the spec: the scheduled-reboot view for
`PATCH /agents/id/reboot/` is not under `src/`, only its test is.  The view
parses the submitted date-time string with the supplied parser; on parse
failure it returns 400 with the literal body Invalid date and performs no
transport call (validation precedes dispatch); on success it dispatches one
schedtask payload whose name is generated from the supplied nonce and which
carries explicit year, month name, day, hour and minute fields and the
delete-after-run flag. -/
def reboot_later_view (parse : String → Option RebootDate) (nonce : String)
    (dt : String) : RebootLaterResult :=
  match parse dt with
  | none => ⟨400, "Invalid date", []⟩
  | some d =>
    ⟨200, "",
      [⟨"schedtask", "schedreboot", true, "once",
        "TacticalRMM_SchedReboot_" ++ nonce, d.year, month_name d.month,
        d.day, d.hour, d.minute⟩]⟩

/-- A concrete date parser recognising one fixed date-time string, used to
exercise `reboot_later_view` on closed inputs. -/
def demo_parse (s : String) : Option RebootDate :=
  if s = "2025-08-29 18:41" then some ⟨2025, 8, 29, 18, 41⟩ else none

/-! ## Bulk agent update view (spec-modelled) -/

/-- Submitted agent record: external identifier plus stored version
string. -/
structure AgentRec where
  agent_id : String
  version : String
deriving Repr, DecidableEq

/-- Split a character list on the dot character, mirroring a split of the
version string on periods. -/
def split_dots : List Char → List (List Char)
  | [] => [[]]
  | c :: cs =>
    if c = '.' then [] :: split_dots cs
    else
      match split_dots cs with
      | [] => [[c]]
      | r :: rs => (c :: r) :: rs

/-- Read a digit sequence as a natural number, accumulator form. -/
def parse_nat_aux : List Char → Nat → Option Nat
  | [], acc => some acc
  | c :: cs, acc =>
    if c.isDigit then parse_nat_aux cs (acc * 10 + (c.toNat - 48)) else none

/-- Read a non-empty digit sequence as a natural number. -/
def parse_nat_chars : List Char → Option Nat
  | [] => none
  | c :: cs => parse_nat_aux (c :: cs) 0

/-- Numeric components of a dotted version string; a non-numeric component
becomes 0. -/
def parse_ver (s : String) : List Nat :=
  (split_dots s.data).map (fun p => (parse_nat_chars p).getD 0)

/-- Strict lexicographic (character-wise) order on character lists. -/
def char_list_lt : List Char → List Char → Bool
  | [], [] => false
  | [], _ :: _ => true
  | _ :: _, [] => false
  | a :: as, b :: bs =>
    if a < b then true else if a = b then char_list_lt as bs else false

/-- Plain lexicographic order on strings, the string comparison that
semantic-version comparison is contrasted with. -/
def str_lex_lt (a b : String) : Bool :=
  char_list_lt a.data b.data

/-- Pad a component list with trailing zeros up to length `n`. -/
def pad_zeros (l : List Nat) (n : Nat) : List Nat :=
  l ++ List.replicate (n - l.length) 0

/-- Strict lexicographic order on equal-length component lists. -/
def ver_list_lt : List Nat → List Nat → Bool
  | a :: as, b :: bs =>
    if a < b then true else if a = b then ver_list_lt as bs else false
  | _, _ => false

/-- Semantic-version strict order on dotted version strings: numeric
components compared positionally, shorter versions padded with zeros (so
1.3 and 1.3.0 compare equal, and 1.10.0 orders above 1.9.0). -/
def ver_lt (a b : String) : Bool :=
  let va := parse_ver a
  let vb := parse_ver b
  let n := max va.length vb.length
  ver_list_lt (pad_zeros va n) (pad_zeros vb n)

/-- Modelled from the spec: the bulk update view for `POST /agents/update/`
is not under `src/`, only its test is.  Of the submitted agents, exactly
those whose stored version orders strictly below the configured latest
version under semantic-version comparison have their identifiers passed to
the downstream update task. -/
def update_agents_view (agents : List AgentRec) (latest : String) :
    List String :=
  (agents.filter (fun a => ver_lt a.version latest)).map
    (fun a => a.agent_id)

/-! ## Templating resolver, from `tacticalrmm/utils.py` -/

/-- A Python-level value handled by the resolver: a string, a boolean, or
a list of strings (the value of a multiple custom field). -/
inductive Value where
  | str (s : String)
  | bool (b : Bool)
  | list (l : List String)
deriving Repr, DecidableEq

/-- Python truthiness of a resolver value. -/
def Value.truthy : Value → Bool
  | .str s => s != ""
  | .bool b => b
  | .list l => !l.isEmpty

/-- The single-quote character used by the source to quote substituted
values. -/
def squote : String := String.mk [Char.ofNat 39]

/-- Wrap a string in single quotes, as the f-string quoting of the source
does. -/
def quoted (s : String) : String := squote ++ s ++ squote

/-- Python string image of a resolver value under f-string interpolation:
strings verbatim, booleans capitalised, lists rendered in bracket notation
with quoted elements. -/
def Value.pyStr : Value → String
  | .str s => s
  | .bool b => if b then "True" else "False"
  | .list l =>
    "[" ++ String.intercalate ", " (l.map (fun s => quoted s)) ++ "]"

/-- Split a string on the period character, mirroring the Python
`string.split` call of the source. -/
def split_on_dot (s : String) : List String :=
  (split_dots s.data).map String.mk

/-- A client row: primary key plus its plain (non-custom) attributes. -/
structure Client where
  pk : Nat
  attrs : List (String × String)
deriving Repr, DecidableEq

/-- A site row: primary key, owning client, plain attributes. -/
structure Site where
  pk : Nat
  client : Client
  attrs : List (String × String)
deriving Repr, DecidableEq

/-- An agent row: primary key, owning site, plain attributes. -/
structure Agent where
  pk : Nat
  site : Site
  attrs : List (String × String)
deriving Repr, DecidableEq

/-- The optional instance argument of the resolver. -/
inductive Instance where
  | client (c : Client)
  | site (s : Site)
  | agent (a : Agent)
deriving Repr, DecidableEq

/-- The owner object the resolver settles on for a given model word. -/
inductive Obj where
  | client (c : Client)
  | site (s : Site)
  | agent (a : Agent)
deriving Repr, DecidableEq

/-- Primary key of an owner object. -/
def Obj.pk : Obj → Nat
  | .client c => c.pk
  | .site s => s.pk
  | .agent a => a.pk

/-- Plain attributes of an owner object, consulted by the hasattr and
getattr calls of the source. -/
def Obj.attrs : Obj → List (String × String)
  | .client c => c.attrs
  | .site s => s.attrs
  | .agent a => a.attrs

/-- A custom-field definition: owning model word, name, type string, and
optional default value. -/
structure CustomField where
  model : String
  name : String
  ftype : String
  default_value : Option Value
deriving Repr, DecidableEq

/-- A stored custom-field value row, keyed by the field and the owning
object. -/
structure FieldValue where
  field_model : String
  field_name : String
  owner : Nat
  value : Value
deriving Repr, DecidableEq

/-- Database state consulted by the resolver: the global key store, the
custom-field definitions, and the stored custom-field values. -/
structure DB where
  global_store : List (String × String)
  custom_fields : List CustomField
  field_values : List FieldValue
deriving Repr, DecidableEq

/-- The source passes a raw stored value to `format_shell_array`: a list
iterates its elements; a string iterates its characters, as Python
iteration over a string does.  A boolean is not iterable in Python; that
ill-typed combination (a boolean stored under a multiple field) is modelled
as the empty join. -/
def format_shell_array_value : Value → String
  | .list l => format_shell_array l
  | .str s => format_shell_array (s.data.map (fun c => String.mk [c]))
  | .bool _ => format_shell_array []

/-- The source passes a raw stored value to `format_shell_bool`, whose
condition reads the Python truthiness of the value. -/
def format_shell_bool_value (v : Value) (shell : Option String) : String :=
  format_shell_bool v.truthy shell

/-- Shallow embedding of `replace_db_values` (utils.py lines 238-348),
resolving one placeholder of the `model.property` templating language
against the database state.  The result is `Except.error` exactly where the
source raises: the log line for a missing global key references an
undefined name `agent`, so that branch raises NameError when executed.
Every ignored-argument early return of the source yields the empty
string. -/
def replace_db_values (db : DB) (s : String) (inst : Option Instance)
    (shell : Option String) (quotes : Bool) : Except String Value :=
  let temp := split_on_dot s
  if temp.length < 2 then .ok (.str "")
  else
    let m0 := temp.headD ""
    let p1 := temp.getD 1 ""
    if m0 = "global" then
      match db.global_store.lookup p1 with
      | some v => .ok (.str (if quotes then quoted v else v))
      | none => .error "NameError: name agent is not defined"
    else
      match inst with
      | none => .ok (.str "")
      | some i =>
        let mobj : Option (String × Option Obj) :=
          if m0 = "client" then
            some ("client",
              match i with
              | .client c => some (.client c)
              | .site st => some (.client st.client)
              | .agent a => some (.client a.site.client))
          else if m0 = "site" then
            some ("site",
              match i with
              | .site st => some (.site st)
              | .agent a => some (.site a.site)
              | .client _ => none)
          else if m0 = "agent" then
            some ("agent",
              match i with
              | .agent a => some (.agent a)
              | _ => none)
          else none
        match mobj with
        | none => .ok (.str "")
        | some (_, none) => .ok (.str "")
        | some (model, some obj) =>
          match obj.attrs.lookup p1 with
          | some attr => .ok (.str (if quotes then quoted attr else attr))
          | none =>
            match db.custom_fields.find?
                (fun f => f.model == model && f.name == p1) with
            | none => .ok (.str "")
            | some field =>
              let stored : Option Value :=
                match db.field_values.find? (fun fv =>
                    fv.field_model == model && fv.field_name == p1 &&
                    fv.owner == obj.pk) with
                | some fv =>
                  if field.ftype != "checkbox" && fv.value.truthy then
                    some fv.value
                  else if field.ftype == "checkbox" then some fv.value
                  else none
                | none => none
              let value :=
                match stored with
                | none => field.default_value
                | some v => some v
              match value with
              | some v =>
                if v.truthy && field.ftype == "multiple" then
                  .ok (.str
                    (if quotes then quoted (format_shell_array_value v)
                     else format_shell_array_value v))
                else if field.ftype == "checkbox" then
                  .ok (.str (format_shell_bool_value v shell))
                else if quotes then .ok (.str (quoted v.pyStr))
                else .ok v
              | none =>
                if quotes then .ok (.str (quoted "None"))
                else .ok (.str "")

/-! ## History pruning task (spec-modelled) -/

/-- An AgentHistory row: identifier plus creation timestamp, given as an
integer number of seconds on an absolute time line. -/
structure HistoryRec where
  id : Nat
  time : Int
deriving Repr, DecidableEq

/-- Seconds in one day. -/
def day_seconds : Int := 86400

/-- Modelled from the spec: the `prune_agent_history` background task is not
under `src/`, only its test is.  Pruning with a cutoff of N days deletes the
rows whose timestamp lies strictly before N days ago, keeping the
complement. -/
def prune_agent_history (older_than_days : Nat) (now : Int)
    (records : List HistoryRec) : List HistoryRec :=
  records.filter
    (fun r => !decide (r.time < now - (older_than_days : Int) * day_seconds))

/-! ## Permission scoping (spec-modelled) -/

/-- Agent reference carrying its owning client and site identifiers. -/
structure AgentRef where
  agent_id : String
  client : Nat
  site : Nat
deriving Repr, DecidableEq

/-- Visibility-relevant attributes of a caller: superuser flag plus the
allow-set of clients and the allow-set of sites, an empty allow-set meaning
no restriction of that kind. -/
structure Perms where
  superuser : Bool
  clients : List Nat
  sites : List Nat
deriving Repr, DecidableEq

/-- Modelled from the spec: the shared visibility filter applied by the
agent endpoints, whose code is not under `src/` (only its tests are).  A
superuser, or a caller with neither a client restriction nor a site
restriction, sees every agent; a caller with either restriction sees
exactly the agents whose owning client is in the allowed clients together
with the agents whose owning site is in the allowed sites. -/
def visible_agent (p : Perms) (a : AgentRef) : Bool :=
  if p.superuser || (p.clients.isEmpty && p.sites.isEmpty) then true
  else p.clients.contains a.client || p.sites.contains a.site

/-- Modelled from the spec: the list endpoint returns the visible subset of
the agent table. -/
def list_agents_view (p : Perms) (agents : List AgentRef) : List AgentRef :=
  agents.filter (visible_agent p)

/-- Modelled from the spec: the detail endpoint serves a visible agent with
200 and denies an invisible one. -/
def detail_agent_view (p : Perms) (a : AgentRef) : Nat :=
  if visible_agent p a then 200 else 403

/-- Modelled from the spec: a bulk action dispatches exactly the visible
subset of the submitted agents, by identifier. -/
def bulk_agent_dispatch (p : Perms) (agents : List AgentRef) : List String :=
  (agents.filter (visible_agent p)).map (fun a => a.agent_id)

end TRMM

namespace TRMM

/-! ## Theorems -/

/-- C2: for every transport reply value, the ping endpoint returns status
200 with the agent name, and the body status is `online` for exactly the
reply value `pong` and `offline` for every other reply value; the mapping
is a function of the reply alone, hence deterministic. -/
theorem ping_status_mapping (h reply : String) :
    (ping_view h reply).status = 200 ∧
    (ping_view h reply).name = h ∧
    ((ping_view h reply).agentStatus = "online" ↔ reply = "pong") ∧
    ((ping_view h reply).agentStatus = "offline" ↔ reply ≠ "pong") := by
  unfold ping_view
  by_cases hr : reply = "pong" <;> simp [hr]

/-- C3: for every value of the days parameter, the event-log fetch uses
timeouts that depend only on the log name: 30/32 seconds (logical/wire) for
the Application log, 180/182 seconds for the Security log, and for every
log name the wire timeout exceeds the logical timeout by exactly 2
seconds. -/
theorem eventlog_timeout_constants (days : Nat) (logname : String) :
    (eventlog_call "Application" days).payload.timeout = 30 ∧
    (eventlog_call "Application" days).wireTimeout = 32 ∧
    (eventlog_call "Security" days).payload.timeout = 180 ∧
    (eventlog_call "Security" days).wireTimeout = 182 ∧
    (eventlog_call logname days).wireTimeout =
      (eventlog_call logname days).payload.timeout + 2 ∧
    (eventlog_call logname days).payload.timeout =
      (eventlog_call logname 0).payload.timeout := by
  refine ⟨rfl, rfl, rfl, rfl, ?_, ?_⟩ <;> simp [eventlog_call]

/-- C1: mode `mesh` with transport reply `timeout` creates exactly one
RecoveryAction of mode `mesh`; mode `tacagent` with reply `timeout` creates
no RecoveryAction and fails with 400; mode `command` with a missing or
empty command returns 400 with no RecoveryAction and no transport contact;
mode `command` with a non-empty command creates exactly one RecoveryAction
carrying that exact command text, for every transport outcome. -/
theorem recover_mode_outcomes (reply c : String) :
    recover_view "mesh" none "timeout" =
      ⟨200, [⟨"mesh", none⟩], [⟨"recover", "mesh"⟩]⟩ ∧
    recover_view "tacagent" none "timeout" =
      ⟨400, [], [⟨"recover", "tacagent"⟩]⟩ ∧
    recover_view "command" none reply = ⟨400, [], []⟩ ∧
    recover_view "command" (some "") reply = ⟨400, [], []⟩ ∧
    (c ≠ "" →
      recover_view "command" (some c) reply =
        ⟨200, [⟨"command", some c⟩], []⟩) := by
  refine ⟨rfl, rfl, rfl, rfl, fun hc => ?_⟩
  simp [recover_view, hc]

/-- Closed instance of `recover_mode_outcomes` at a concrete non-empty
command. -/
theorem recover_mode_outcomes_witness :
    recover_view "command" (some "shutdown /r /t 10 /f") "ok" =
      ⟨200, [⟨"command", some "shutdown /r /t 10 /f"⟩], []⟩ :=
  (recover_mode_outcomes "ok" "shutdown /r /t 10 /f").2.2.2.2 (by decide)

/-- C4: for every date-time string the parser rejects, the scheduled-reboot
view returns 400 with the literal body Invalid date and makes no transport
call; for every string the parser accepts, it dispatches exactly one
schedtask payload carrying the generated task name, explicit year,
month-name, day, hour and minute fields, and the delete-after-run flag. -/
theorem reboot_later_validation (parse : String → Option RebootDate)
    (nonce dt : String) :
    (parse dt = none →
      reboot_later_view parse nonce dt = ⟨400, "Invalid date", []⟩) ∧
    (∀ d, parse dt = some d →
      reboot_later_view parse nonce dt =
        ⟨200, "",
          [⟨"schedtask", "schedreboot", true, "once",
            "TacticalRMM_SchedReboot_" ++ nonce, d.year, month_name d.month,
            d.day, d.hour, d.minute⟩]⟩) := by
  constructor
  · intro h
    unfold reboot_later_view
    rw [h]
  · intro d h
    unfold reboot_later_view
    rw [h]

/-- Closed instance of `reboot_later_validation`: the unparseable string is
rejected without transport contact and the parseable one dispatches the
expected schedtask payload. -/
theorem reboot_later_validation_witness :
    reboot_later_view demo_parse "abc123" "rm -rf /" =
      ⟨400, "Invalid date", []⟩ ∧
    reboot_later_view demo_parse "abc123" "2025-08-29 18:41" =
      ⟨200, "",
        [⟨"schedtask", "schedreboot", true, "once",
          "TacticalRMM_SchedReboot_abc123", 2025, "August", 29, 18, 41⟩]⟩ := by
  constructor
  · exact (reboot_later_validation demo_parse "abc123" "rm -rf /").1
      (by decide)
  · rw [(reboot_later_validation demo_parse "abc123" "2025-08-29 18:41").2
      ⟨2025, 8, 29, 18, 41⟩ (by decide)]
    decide

/-- C5: the identifiers passed to the downstream update task are exactly
those of the submitted agents whose stored version orders strictly below
the latest version under semantic-version comparison; the order is genuinely
semantic and not lexicographic on the strings, as 1.10.0 does not order
below 1.9.0 even though the string 1.10.0 is lexicographically smaller. -/
theorem update_agents_version_filter (agents : List AgentRec)
    (latest x : String) :
    (x ∈ update_agents_view agents latest ↔
      ∃ a, a ∈ agents ∧ ver_lt a.version latest = true ∧ a.agent_id = x) ∧
    ver_lt "1.3.0" "1.9.0" = true ∧
    ver_lt "1.10.0" "1.9.0" = false ∧
    str_lex_lt "1.10.0" "1.9.0" = true := by
  refine ⟨?_, by decide, by decide, by decide⟩
  simp only [update_agents_view, List.mem_map, List.mem_filter]
  constructor
  · rintro ⟨a, ⟨ha, hv⟩, hx⟩
    exact ⟨a, ha, hv, hx⟩
  · rintro ⟨a, ha, hv, hx⟩
    exact ⟨a, ⟨ha, hv⟩, hx⟩

/-- C6: pruning with a cutoff of N days retains exactly the history records
whose age is at most N days (in seconds) and deletes exactly those whose
age exceeds N days. -/
theorem history_prune_retention (n : Nat) (now : Int)
    (records : List HistoryRec) (r : HistoryRec) :
    (r ∈ prune_agent_history n now records ↔
      r ∈ records ∧ now - r.time ≤ (n : Int) * day_seconds) ∧
    (r ∈ records ∧ r ∉ prune_agent_history n now records ↔
      r ∈ records ∧ (n : Int) * day_seconds < now - r.time) := by
  simp only [day_seconds]
  have hmem : r ∈ prune_agent_history n now records ↔
      r ∈ records ∧ now - r.time ≤ (n : Int) * 86400 := by
    simp only [prune_agent_history, day_seconds, List.mem_filter,
      Bool.not_eq_true', decide_eq_false_iff_not, not_lt]
    constructor
    · rintro ⟨h1, h2⟩
      exact ⟨h1, by omega⟩
    · rintro ⟨h1, h2⟩
      exact ⟨h1, by omega⟩
  refine ⟨hmem, ?_⟩
  rw [hmem]
  constructor
  · rintro ⟨h1, h2⟩
    refine ⟨h1, ?_⟩
    have h3 : ¬ now - r.time ≤ (n : Int) * 86400 := fun hle => h2 ⟨h1, hle⟩
    omega
  · rintro ⟨h1, h2⟩
    exact ⟨h1, fun hc => absurd hc.2 (by omega)⟩

/-- C7: visibility is one shared computation: a superuser or a caller with
neither a client restriction nor a site restriction sees every agent; a
caller with either restriction sees exactly the union of agents under the
allowed clients and agents under the allowed sites; and the list, detail
and bulk endpoints all decide by that same computation. -/
theorem agent_visibility_scoping (p : Perms) (a : AgentRef)
    (agents : List AgentRef) (x : String) :
    (p.superuser = true → visible_agent p a = true) ∧
    (p.clients = [] → p.sites = [] → visible_agent p a = true) ∧
    (p.superuser = false → p.clients ≠ [] ∨ p.sites ≠ [] →
      (visible_agent p a = true ↔
        a.client ∈ p.clients ∨ a.site ∈ p.sites)) ∧
    (a ∈ list_agents_view p agents ↔
      a ∈ agents ∧ visible_agent p a = true) ∧
    (detail_agent_view p a = 200 ↔ visible_agent p a = true) ∧
    (x ∈ bulk_agent_dispatch p agents ↔
      ∃ b, b ∈ agents ∧ visible_agent p b = true ∧ b.agent_id = x) := by
  refine ⟨?_, ?_, ?_, ?_, ?_, ?_⟩
  · intro h
    simp [visible_agent, h]
  · intro h1 h2
    simp [visible_agent, h1, h2]
  · intro hs hr
    have hres : (p.clients.isEmpty && p.sites.isEmpty) = false := by
      rcases hr with h | h <;> cases hc : p.clients <;> cases hd : p.sites <;>
        simp_all
    simp [visible_agent, hs, hres]
  · simp [list_agents_view, List.mem_filter]
  · by_cases hv : visible_agent p a = true <;> simp [detail_agent_view, hv]
  · simp only [bulk_agent_dispatch, List.mem_map, List.mem_filter]
    constructor
    · rintro ⟨b, ⟨hb, hv⟩, hx⟩
      exact ⟨b, hb, hv, hx⟩
    · rintro ⟨b, hb, hv, hx⟩
      exact ⟨b, ⟨hb, hv⟩, hx⟩

/-- Closed instance of `agent_visibility_scoping`: a client-restricted
caller sees an agent under the allowed client, and a superuser sees an
arbitrary agent. -/
theorem agent_visibility_scoping_witness :
    visible_agent ⟨false, [1], []⟩ ⟨"a1", 1, 5⟩ = true ∧
    visible_agent ⟨true, [], []⟩ ⟨"a2", 9, 9⟩ = true := by
  constructor
  · exact ((agent_visibility_scoping ⟨false, [1], []⟩ ⟨"a1", 1, 5⟩ [] "").2.2.1
      rfl (Or.inl (by decide))).mpr (Or.inl (by decide))
  · exact (agent_visibility_scoping ⟨true, [], []⟩ ⟨"a2", 9, 9⟩ [] "").1 rfl

/-- C8: a boolean custom-field value renders as a dollar-prefixed boolean
under the powershell shell and as 1 or 0 under every other shell, for both
truth values. -/
theorem format_shell_bool_by_shell (v : Bool) (shell : Option String) :
    format_shell_bool v (some "powershell") =
      (if v then "$True" else "$False") ∧
    (shell ≠ some "powershell" →
      format_shell_bool v shell = if v then "1" else "0") := by
  constructor
  · simp [format_shell_bool]
  · intro h
    simp [format_shell_bool, h]

/-- Closed instance of `format_shell_bool_by_shell` at concrete shells and
truth values. -/
theorem format_shell_bool_by_shell_witness :
    format_shell_bool true (some "cmd") = "1" ∧
    format_shell_bool false none = "0" ∧
    format_shell_bool true (some "powershell") = "$True" := by
  refine ⟨?_, ?_, ?_⟩
  · exact (format_shell_bool_by_shell true (some "cmd")).2 (by decide)
  · exact (format_shell_bool_by_shell false none).2 (by decide)
  · exact (format_shell_bool_by_shell true none).1

/-- Auxiliary: the accumulator distributes over the comma-append fold of
`format_shell_array`. -/
theorem foldl_comma_acc (l : List String) (acc : String) :
    (l.foldl (fun a i => a ++ i ++ ",") acc).data =
      acc.data ++ (l.foldl (fun a i => a ++ i ++ ",") "").data := by
  induction l generalizing acc with
  | nil => simp
  | cons x xs ih =>
    simp only [List.foldl_cons]
    rw [ih (acc ++ x ++ ","), ih ("" ++ x ++ ",")]
    simp [String.data_append, List.append_assoc,
      show ("" : String).data = [] from rfl]

/-- Auxiliary: on a non-empty list the comma-append fold produces the
comma-join followed by one trailing comma. -/
theorem foldl_comma_data (l : List String) (h : l ≠ []) :
    (l.foldl (fun a i => a ++ i ++ ",") "").data =
      (comma_join l).data ++ [','] := by
  induction l with
  | nil => exact absurd rfl h
  | cons x xs ih =>
    cases xs with
    | nil =>
      show (("" ++ x ++ ",").data) = (comma_join [x]).data ++ [',']
      simp [comma_join, String.data_append,
        show ("" : String).data = [] from rfl,
        show ("," : String).data = [','] from rfl]
    | cons y ys =>
      rw [List.foldl_cons, foldl_comma_acc (y :: ys) ("" ++ x ++ ","),
        ih (by simp)]
      show _ = (x ++ "," ++ comma_join (y :: ys)).data ++ [',']
      simp [String.data_append, List.append_assoc,
        show ("" : String).data = [] from rfl,
        show ("," : String).data = [','] from rfl]

/-- Auxiliary: stripping commas from both ends absorbs one trailing
comma. -/
theorem stripc_append_comma (cs : List Char) :
    stripc (cs ++ [',']) = stripc cs := by
  unfold stripc
  rw [List.dropWhile_append]
  by_cases h : (cs.dropWhile (fun c => c = ',')).isEmpty = true
  · rw [if_pos h, List.isEmpty_iff.mp h]
    simp [List.dropWhile_cons]
  · rw [if_neg h, List.reverse_append]
    simp [List.dropWhile_cons]

/-- C9 counterexample: for the single-element list whose element ends in a
comma, the rendered value is not the comma-separated join of the elements,
because the source strips boundary commas from the joined string. -/
theorem format_shell_array_counterexample :
    format_shell_array ["hello,"] = "hello" ∧
    comma_join ["hello,"] = "hello," ∧
    format_shell_array ["hello,"] ≠ comma_join ["hello,"] := by
  refine ⟨by decide, by decide, by decide⟩

/-- C9 (amended): the rendered value of a list-valued custom field is the
comma-separated join of its elements, in order, with every leading and
trailing comma character of the joined string stripped; for lists whose
boundary elements are non-empty and carry no boundary commas this is
exactly the comma-separated join. -/
theorem format_shell_array_strips_join (value : List String) :
    format_shell_array value = strip_commas (comma_join value) := by
  cases value with
  | nil => rfl
  | cons x xs =>
    show String.mk
        (stripc ((x :: xs).foldl (fun a i => a ++ i ++ ",") "").data) =
      strip_commas (comma_join (x :: xs))
    rw [foldl_comma_data (x :: xs) (by simp), stripc_append_comma]
    rfl

/-- C10: a placeholder with no period separator, or whose model word is
none of global, client, site and agent, or whose model word is not global
while no instance is supplied, makes the resolver return the empty string;
none of these inputs reaches an exception-raising or substituting path. -/
theorem replace_db_values_early_returns (db : DB) (s : String)
    (inst : Option Instance) (shell : Option String) (quotes : Bool) :
    ((split_on_dot s).length < 2 →
      replace_db_values db s inst shell quotes = .ok (.str "")) ∧
    (2 ≤ (split_on_dot s).length →
      (split_on_dot s).headD "" ∉ ["global", "client", "site", "agent"] →
      replace_db_values db s inst shell quotes = .ok (.str "")) ∧
    (2 ≤ (split_on_dot s).length →
      (split_on_dot s).headD "" ≠ "global" → inst = none →
      replace_db_values db s inst shell quotes = .ok (.str "")) := by
  refine ⟨?_, ?_, ?_⟩
  · intro h
    simp only [replace_db_values]
    rw [if_pos h]
  · intro h2 hnotin
    simp only [List.mem_cons, List.not_mem_nil, or_false, not_or]
      at hnotin
    obtain ⟨hg, hc, hs, ha⟩ := hnotin
    simp only [replace_db_values]
    rw [if_neg (by omega), if_neg hg]
    cases inst with
    | none => rfl
    | some i => simp only [if_neg hc, if_neg hs, if_neg ha]
  · intro h2 hg hi
    subst hi
    simp only [replace_db_values]
    rw [if_neg (by omega), if_neg hg]

/-- Closed instance of `replace_db_values_early_returns`: a separator-free
placeholder, an unknown model word, and a non-global placeholder without an
instance all resolve to the empty string. -/
theorem replace_db_values_early_returns_witness :
    replace_db_values ⟨[], [], []⟩ "nodot" none none true =
      .ok (.str "") ∧
    replace_db_values ⟨[], [], []⟩ "foo.bar" (some (.client ⟨1, []⟩)) none
      true = .ok (.str "") ∧
    replace_db_values ⟨[], [], []⟩ "client.name" none none true =
      .ok (.str "") := by
  refine ⟨?_, ?_, ?_⟩
  · exact (replace_db_values_early_returns ⟨[], [], []⟩ "nodot" none none
      true).1 (by decide)
  · exact (replace_db_values_early_returns ⟨[], [], []⟩ "foo.bar"
      (some (.client ⟨1, []⟩)) none true).2.1 (by decide) (by decide)
  · exact (replace_db_values_early_returns ⟨[], [], []⟩ "client.name" none
      none true).2.2 (by decide) (by decide) rfl

end TRMM
